import Mathlib

/-!
Verification of the mouse_pipeline incremental batch-computation engine.

This development gives a shallow embedding of the repository's three source
files and of the small parts of the underlying framework that the spec
describes (job reservation, the populate loop, cascade deletion order):

* `src/python/scripts/worker-populate.py` — the polling worker (daemon loop,
  stage-identifier resolution, randomized sleep).
* `src/python/pipeline/reso.py` — key sources, cascade deletes, and
  `SegmentationTask.estimate_num_components`.
* `src/python/pipeline/aodtrk.py` — `TrackInfo._make_tuples` and
  `EyeFrame._make_tuples`.

Python floats are embedded as rationals, Python exceptions as an explicit
error type, and database relations as lists of keys.
-/

namespace MousePipeline

/-- Python exception values observable in the embedded code. -/
inductive PyErr where
  | pipelineException (msg : String)
  | unboundLocal (name : String)
  | valueError (msg : String)
  | notImplementedError (msg : String)
  deriving DecidableEq, Repr

/-! ## The polling worker (worker-populate.py)

`np.random.randint(low, high)` draws a uniform integer from the half-open
interval `[low, high)` and raises `ValueError` when `low >= high`.  The draw
is parametrized here by an arbitrary random source value `r`. -/

def randint (low high : Int) (r : Nat) : Except PyErr Int :=
  if low < high then Except.ok (low + ((r % (high - low).toNat : Nat) : Int))
  else Except.error (PyErr.valueError "low >= high")

/-- Record of one iteration of the worker's while-loop: whether
`populated_at_least_one` was set, which relations were populated (those with
`todo > 0`), and the sleep duration drawn, if the iteration slept. -/
structure CycleRec where
  populated : Bool
  populateCalls : List String
  slept : Option Int
  deriving DecidableEq, Repr

/-- How a worker run ended: `main` returned an exit code, or an exception
escaped (for Python, an uncaught exception also terminates the process). -/
inductive Outcome where
  | exited (code : Int)
  | crashed (e : PyErr)
  deriving DecidableEq, Repr

/-- A (finite prefix of a) worker run: the iterations executed and, if the
run ended within the observed fuel, how it ended. -/
structure WorkerTrace where
  cycles : List CycleRec
  outcome : Option Outcome
  deriving DecidableEq, Repr

/-- The body's stage scan (worker-populate.py lines 43-48): for each
configured relation query `progress()`; any relation with `todo > 0` sets
`populated_at_least_one` and gets populated. -/
def runStages (rels : List String) (todo : String → Nat) : Bool × List String :=
  (rels.any (fun n => decide (0 < todo n)), rels.filter (fun n => decide (0 < todo n)))

/-- The worker's while-loop (worker-populate.py lines 41-52).  `runDaemon`
models the `run_daemon` variable, initially `True` ("execute at least one
loop") and reassigned to `args.daemon` at the end of each iteration; the
sleep is guarded by `run_daemon and not populated_at_least_one` exactly as
in the source.  `todo i` gives each relation's pending count during
iteration `i`, `rand i` the random source for that iteration's sleep, and
`fuel` bounds how many iterations are observed. -/
def workerAux (daemon : Bool) (tmin tmax : Int) (rels : List String)
    (todo : Nat → String → Nat) (rand : Nat → Nat) :
    Nat → Nat → Bool → WorkerTrace
  | 0, _, _ => ⟨[], none⟩
  | fuel + 1, i, runDaemon =>
    if runDaemon then
      if runDaemon && !(runStages rels (todo i)).1 then
        match randint tmin tmax (rand i) with
        | Except.error e =>
          ⟨[⟨(runStages rels (todo i)).1, (runStages rels (todo i)).2, none⟩],
            some (Outcome.crashed e)⟩
        | Except.ok d =>
          ⟨⟨(runStages rels (todo i)).1, (runStages rels (todo i)).2, some d⟩ ::
              (workerAux daemon tmin tmax rels todo rand fuel (i + 1) daemon).cycles,
            (workerAux daemon tmin tmax rels todo rand fuel (i + 1) daemon).outcome⟩
      else
        ⟨⟨(runStages rels (todo i)).1, (runStages rels (todo i)).2, none⟩ ::
            (workerAux daemon tmin tmax rels todo rand fuel (i + 1) daemon).cycles,
          (workerAux daemon tmin tmax rels todo rand fuel (i + 1) daemon).outcome⟩
    else ⟨[], some (Outcome.exited 0)⟩

/-- A stage identifier after `relname.rsplit` at the last dot:
module path and class name. -/
structure RelName where
  modName : String
  clsName : String
  deriving DecidableEq, Repr

/-- Resolution loop (worker-populate.py lines 24-39): import each module and
look up the class; the first failure prints a message and returns exit
code 1.  The environment maps a module path to the class names it defines
(`none` models an ImportError). -/
def resolveRels (env : String → Option (List String)) : List RelName → Option (List String)
  | [] => some []
  | r :: rest =>
    match env r.modName with
    | none => none
    | some classes =>
      if r.clsName ∈ classes then
        (resolveRels env rest).map (fun l => (r.modName ++ "." ++ r.clsName) :: l)
      else none

/-- A stage identifier resolves when its module imports and defines the
named class. -/
def resolvable (env : String → Option (List String)) (r : RelName) : Prop :=
  ∃ cs, env r.modName = some cs ∧ r.clsName ∈ cs

instance (env : String → Option (List String)) (r : RelName) :
    Decidable (resolvable env r) := by
  unfold resolvable
  cases env r.modName with
  | none => exact Decidable.isFalse (by simp)
  | some cs => exact decidable_of_iff (r.clsName ∈ cs) (by simp)

/-- Entry point `main` (worker-populate.py lines 15-52): resolve the stage
identifiers, exiting with code 1 on the first unresolvable one, then run
the while-loop. -/
def mainRun (env : String → Option (List String)) (relnames : List RelName)
    (daemon : Bool) (tmin tmax : Int) (todo : Nat → String → Nat)
    (rand : Nat → Nat) (fuel : Nat) : WorkerTrace :=
  match resolveRels env relnames with
  | none => ⟨[], some (Outcome.exited 1)⟩
  | some rels => workerAux daemon tmin tmax rels todo rand fuel 0 true

/-! ## Job reservation store

The reservation table itself lives in the datajoint framework, not under
this repository's sources; `worker-populate.py` drives it through
`populate(reserve_jobs=True)`.  Modelled from the spec (section 4.2):
`try_reserve` is an atomic insert-if-absent on the shared table of
reservations, so any concurrent execution of reservation attempts is
equivalent to some sequential order of the atomic operations; quantifying
over all attempt orders below covers all interleavings. -/

/-- One reservation slot: a stage identifier and a key. -/
structure JobKey where
  stage : String
  key : Nat
  deriving DecidableEq, Repr

/-- Modelled from the spec: `try_reserve(stage, key, owner)` (spec section
4.2, missing from src/) — succeeds and records the reservation iff no
active record exists for `(stage, key)`; a conflicting caller observes
failure and the table is unchanged. -/
def tryReserve (jobs : List JobKey) (j : JobKey) : Bool × List JobKey :=
  if j ∈ jobs then (false, jobs) else (true, j :: jobs)

/-- Run a sequence of reservation attempts against the shared table,
returning the per-attempt log (attempt, success?) and the final table.
Per the spec, only an attempt whose reservation succeeded goes on to
compute and commit, so successful log entries are exactly the
ever-successful commits. -/
def runReservations (jobs : List JobKey) : List JobKey → List (JobKey × Bool) × List JobKey
  | [] => ([], jobs)
  | a :: as =>
    ((a, (tryReserve jobs a).1) :: (runReservations (tryReserve jobs a).2 as).1,
      (runReservations (tryReserve jobs a).2 as).2)

/-- Number of successful reservations (hence commits) for job `j` in a log. -/
def successCount (j : JobKey) (log : List (JobKey × Bool)) : Nat :=
  (log.filter (fun p => p.1 == j && p.2)).length

/-! ## Populate executor

datajoint's `populate` loop is likewise framework code not under src/.
Modelled from the spec (section 4.3): for each pending key invoke the
stage's compute function; on success commit the result atomically and mark
done; on failure record the error detail and continue to the next key. -/

/-- Outcome of one `populate(stage)` call over a batch of pending keys. -/
structure PopulateResult (K R E : Type) where
  attempted : List K
  committed : List (K × R)
  errored : List (K × E)
  deriving DecidableEq, Repr

/-- Modelled from the spec: the populate executor (spec section 4.3,
missing from src/) — every pending key is attempted in order; a compute
failure is recorded and never aborts the batch. -/
def populate {K R E : Type} (compute : K → Except E R) : List K → PopulateResult K R E
  | [] => ⟨[], [], []⟩
  | k :: ks =>
    match compute k with
    | Except.ok r =>
      ⟨k :: (populate compute ks).attempted, (k, r) :: (populate compute ks).committed,
        (populate compute ks).errored⟩
    | Except.error e =>
      ⟨k :: (populate compute ks).attempted, (populate compute ks).committed,
        (k, e) :: (populate compute ks).errored⟩

/-- Compute function of the Activity stage (reso.py lines 1292-1338),
abstracted over the upstream units and the external deconvolution
algorithms: known python spike methods produce one trace row per unit;
the nmf method and unknown methods raise NotImplementedError.  (The
result set is committed atomically by the executor per spec section 4.3.) -/
def activityCompute (spikeMethodName : String) (units : List Nat)
    (deconv : Nat → List Int) : Except PyErr (List (Nat × List Int)) :=
  if spikeMethodName = "oopsi" then Except.ok (units.map (fun u => (u, deconv u)))
  else if spikeMethodName = "stm" then Except.ok (units.map (fun u => (u, deconv u)))
  else if spikeMethodName = "nmf" then
    Except.error (PyErr.notImplementedError "NMF not yet implemented")
  else
    Except.error (PyErr.notImplementedError (spikeMethodName ++ " method not implemented."))

/-! ## RasterCorrection key source (reso.py lines 264-267)

Relations are embedded as lists of keys: `scanInfo` holds scan keys,
`scanInfoSlice` and `correctionChannel` hold (scan, slice) primary keys,
and `rasterDone` is the set of scans already done for RasterCorrection.
datajoint's `A & B` keeps rows of `A` matching some row of `B` on their
common attributes, and `A - B` keeps rows of `A` matching none. -/

structure ScanDB where
  scanInfo : List Nat
  scanInfoSlice : List (Nat × Nat)
  correctionChannel : List (Nat × Nat)
  rasterDone : List Nat
  deriving DecidableEq, Repr

/-- `RasterCorrection.key_source`:
`(ScanInfo() & CorrectionChannel()) - (ScanInfo.Slice() - CorrectionChannel())`.
The first restriction joins on the scan key (the attributes ScanInfo and
CorrectionChannel share); the inner difference joins on (scan, slice); the
outer difference joins on the scan key again. -/
def rasterKeySource (db : ScanDB) : List Nat :=
  let withCC := db.scanInfo.filter (fun s => db.correctionChannel.any (fun c => c.1 == s))
  let slicesMissingCC :=
    db.scanInfoSlice.filter (fun sl => !(db.correctionChannel.any (fun c => c == sl)))
  withCC.filter (fun s => !(slicesMissingCC.any (fun sl => sl.1 == s)))

/-- Modelled from the spec: the pending set is the stage's key source minus
the keys already done for the stage (spec section 4.1, `Result = U − D`;
the subtraction is performed by the framework, not by code under src/). -/
def rasterPending (db : ScanDB) : List Nat :=
  (rasterKeySource db).filter (fun s => !(db.rasterDone.any (fun d => d == s)))

/-- The pending condition exactly as claim C4 words it: the ScanInfo row
exists, no slice of the scan lacks a CorrectionChannel row, and the key is
not already done for the stage. -/
def rasterPendingClaim (db : ScanDB) (s : Nat) : Prop :=
  s ∈ db.scanInfo ∧ (∀ sl ∈ db.scanInfoSlice, sl.1 = s → sl ∈ db.correctionChannel) ∧
    s ∉ db.rasterDone

instance (db : ScanDB) (s : Nat) : Decidable (rasterPendingClaim db s) := by
  unfold rasterPendingClaim
  infer_instance

/-- A scan with a ScanInfo row but no slice rows and no correction-channel
rows: vacuously every slice has a choice, yet the key source excludes it. -/
def scanDBNoSlices : ScanDB := ⟨[1], [], [], []⟩

/-! ## SegmentationTask.estimate_num_components (reso.py lines 552-578)

The slice dimensions fetched from ScanInfo are parameters (floats embedded
as rationals).  The first output component logs the messages of
PipelineException objects that the body constructs without raising or
returning them; a read of the unassigned local `num_components` at the
return statement is an unbound-local failure. -/

def estimate_num_components (um_height um_width : ℚ) (compartment : String) :
    List String × Except PyErr Int :=
  let slice_thickness : ℚ := 10
  let slice_volume := um_width * um_height * slice_thickness
  if compartment = "soma" then
    ([], Except.ok (round (slice_volume * (1 / 10000))))
  else if compartment = "axon" then
    ([], Except.ok (round (slice_volume * (1 / 1000))))
  else
    -- line 576 constructs PipelineException(...) and discards it; control
    -- reaches the return on line 578, where num_components is unassigned
    (["Compartment type " ++ compartment ++ " not recognized"],
      Except.error (PyErr.unboundLocal "num_components"))

/-! ## TrackInfo._make_tuples (aodtrk.py lines 30-65) -/

/-- A row of the TrackInfo relation. -/
structure TrackRow where
  scanKey : Nat
  base_video_path : String
  deriving DecidableEq, Repr

/-- TrackInfo._make_tuples: the only assignment to the local variable
`words` (line 36) is commented out, so the read `words[0]` on line 39
raises UnboundLocalError.  The rest of the body (lines 39-65, up to and
including the `insert1` on line 65) is the continuation `rest`, reached
only with a value for `words`; the result pairs the rows inserted with the
final outcome. -/
def trackInfo_make_tuples (hdf5_file : String)
    (rest : List String → List TrackRow × Except PyErr Unit) :
    List TrackRow × Except PyErr Unit :=
  let _path := hdf5_file.replace "\\" "/"
  match (none : Option (List String)) with
  | none => ([], Except.error (PyErr.unboundLocal "words"))
  | some words => rest words

/-! ## ParamEyeFrame and EyeFrame._make_tuples (aodtrk.py lines 154-223) -/

/-- One row of the ParamEyeFrame lookup table, fields in definition order
(aodtrk.py lines 154-171), floats embedded as rationals. -/
structure EyeParam where
  pupil_tracker_param_id : Nat
  convex_weight_high : ℚ
  convex_weight_low : ℚ
  thres_perc_high : ℚ
  thres_perc_low : ℚ
  pupil_left_limit : ℚ
  pupil_right_limit : ℚ
  min_radius : ℚ
  max_radius : ℚ
  centre_dislocation_penalty : ℚ
  distance_sq_pow : ℚ
  deriving DecidableEq, Repr

/-- `ParamEyeFrame.contents` (aodtrk.py lines 173-182). -/
def paramEyeFrameContents : List EyeParam :=
  [⟨0, 1/2, 1/2, 99, 1, 1/5, 4/5, 5, 180, 1/1000, 1⟩,
   ⟨1, 3/4, 1/4, 97, 3, 1/5, 4/5, 5, 180, 1/20, 1/2⟩]

/-- An EyeFrame (or EyeFrame.Detection) row key: the Roi key attributes,
the pupil_tracker_param_id written into the candidate key, and the frame
number. -/
structure EyeFrameRow where
  roiKey : Nat
  pupil_tracker_param_id : Nat
  frame : Nat
  deriving DecidableEq, Repr

/-- EyeFrame._make_tuples (aodtrk.py lines 200-223), abstracted over the
external PupilTracker: `track` maps the parameter record handed to
`PupilTracker` to the trace, a list of (frame index, pupil_x non-null?).
The body fetches the parameter row with `pupil_tracker_param_id=0` (an
empty fetch would raise IndexError, the `none` case), writes its id into
the candidate key, overrides `centre_dislocation_penalty` to 0.001 and
`distance_sq_pow` to 1, tracks, and inserts one EyeFrame row per trace
entry plus one Detection row per entry with non-null pupil_x.  Returns the
parameter record given to the tracker, the EyeFrame rows, and the
Detection rows. -/
def eyeFrame_make_tuples (contents : List EyeParam) (roiKey : Nat)
    (track : EyeParam → List (Nat × Bool)) :
    Option (EyeParam × List EyeFrameRow × List EyeFrameRow) :=
  match (contents.filter (fun p => p.pupil_tracker_param_id == 0)).head? with
  | none => none
  | some p0 =>
    let paramId := p0.pupil_tracker_param_id
    let param := { p0 with centre_dislocation_penalty := 1/1000, distance_sq_pow := 1 }
    let trace := track param
    let eyeRows := trace.map (fun t => EyeFrameRow.mk roiKey paramId t.1)
    let detRows := (trace.filter (fun t => t.2)).map (fun t => EyeFrameRow.mk roiKey paramId t.1)
    some (param, eyeRows, detRows)

/-! ## Cascade deletion in the segmentation subgraph (reso.py)

Rows are abstracted to the restriction of their primary key to the deleted
key `k` (claim C3 speaks of rows "whose key restricts to K"), so every
relation is a list of keys.  The foreign-key graph is read off the table
definitions in reso.py: Segmentation.Mask, Segmentation.MaskInfo, Calcium,
MaskClassification and ScanSet reference Segmentation; Calcium.Trace
references Calcium and Segmentation.Mask; MaskClassification.Type
references MaskClassification and Segmentation.Mask; ScanSet.Unit
references ScanInfo and Segmentation.Mask; Activity references ScanSet;
Activity.Trace references ScanSet.Unit; NMF's three part tables reference
NMF.  `dj.BaseRelation.delete` / `super().delete()` are framework code;
modelled from the spec (section 4.4 and glossary): cascade deletion removes
each dependent table's matching rows, descendants first, before the table's
own rows. -/

/-- The tables of the segmentation subgraph. -/
inductive Tbl where
  | manualSegmentation | nmf | nmfParameters | nmfBackground | nmfAR
  | segmentation | segMask | segMaskInfo | calcium | calciumTrace
  | maskClassification | maskClassificationType | scanSet | scanSetUnit
  | activity | activityTrace
  deriving DecidableEq, Repr

/-- Database state for the segmentation subgraph: each relation as the list
of its rows' keys restricted to the shared scan/slice/channel key. -/
structure SegDB where
  manualSegmentation : List Nat
  nmf : List Nat
  nmfParameters : List Nat
  nmfBackground : List Nat
  nmfAR : List Nat
  segmentation : List Nat
  segMask : List Nat
  segMaskInfo : List Nat
  calcium : List Nat
  calciumTrace : List Nat
  maskClassification : List Nat
  maskClassificationType : List Nat
  scanSet : List Nat
  scanSetUnit : List Nat
  activity : List Nat
  activityTrace : List Nat
  deriving DecidableEq, Repr

/-- Look up one relation of the database by table name. -/
def SegDB.get (db : SegDB) : Tbl → List Nat
  | Tbl.manualSegmentation => db.manualSegmentation
  | Tbl.nmf => db.nmf
  | Tbl.nmfParameters => db.nmfParameters
  | Tbl.nmfBackground => db.nmfBackground
  | Tbl.nmfAR => db.nmfAR
  | Tbl.segmentation => db.segmentation
  | Tbl.segMask => db.segMask
  | Tbl.segMaskInfo => db.segMaskInfo
  | Tbl.calcium => db.calcium
  | Tbl.calciumTrace => db.calciumTrace
  | Tbl.maskClassification => db.maskClassification
  | Tbl.maskClassificationType => db.maskClassificationType
  | Tbl.scanSet => db.scanSet
  | Tbl.scanSetUnit => db.scanSetUnit
  | Tbl.activity => db.activity
  | Tbl.activityTrace => db.activityTrace

/-- Delete every row whose key restricts to `k`. -/
def rm (l : List Nat) (k : Nat) : List Nat := l.filter (fun x => x ≠ k)

/-! Framework cascade deletes, one per table, built bottom-up along the
foreign-key graph.  Each returns the new database and the deletion trace
(tables in the order their rows were removed). -/

def bdel_activityTrace (k : Nat) (db : SegDB) : SegDB × List Tbl :=
  ({ db with activityTrace := rm db.activityTrace k }, [Tbl.activityTrace])

def bdel_activity (k : Nat) (db : SegDB) : SegDB × List Tbl :=
  let r := bdel_activityTrace k db
  ({ r.1 with activity := rm r.1.activity k }, r.2 ++ [Tbl.activity])

def bdel_scanSetUnit (k : Nat) (db : SegDB) : SegDB × List Tbl :=
  let r := bdel_activityTrace k db
  ({ r.1 with scanSetUnit := rm r.1.scanSetUnit k }, r.2 ++ [Tbl.scanSetUnit])

def bdel_scanSet (k : Nat) (db : SegDB) : SegDB × List Tbl :=
  let r := bdel_activity k db
  ({ r.1 with scanSet := rm r.1.scanSet k }, r.2 ++ [Tbl.scanSet])

def bdel_calciumTrace (k : Nat) (db : SegDB) : SegDB × List Tbl :=
  ({ db with calciumTrace := rm db.calciumTrace k }, [Tbl.calciumTrace])

def bdel_calcium (k : Nat) (db : SegDB) : SegDB × List Tbl :=
  let r := bdel_calciumTrace k db
  ({ r.1 with calcium := rm r.1.calcium k }, r.2 ++ [Tbl.calcium])

def bdel_segMaskInfo (k : Nat) (db : SegDB) : SegDB × List Tbl :=
  ({ db with segMaskInfo := rm db.segMaskInfo k }, [Tbl.segMaskInfo])

def bdel_maskClassificationType (k : Nat) (db : SegDB) : SegDB × List Tbl :=
  ({ db with maskClassificationType := rm db.maskClassificationType k },
    [Tbl.maskClassificationType])

def bdel_maskClassification (k : Nat) (db : SegDB) : SegDB × List Tbl :=
  let r := bdel_maskClassificationType k db
  ({ r.1 with maskClassification := rm r.1.maskClassification k },
    r.2 ++ [Tbl.maskClassification])

def bdel_segMask (k : Nat) (db : SegDB) : SegDB × List Tbl :=
  let r1 := bdel_segMaskInfo k db
  let r2 := bdel_calciumTrace k r1.1
  let r3 := bdel_maskClassificationType k r2.1
  let r4 := bdel_scanSetUnit k r3.1
  ({ r4.1 with segMask := rm r4.1.segMask k },
    r1.2 ++ r2.2 ++ r3.2 ++ r4.2 ++ [Tbl.segMask])

def bdel_segmentation (k : Nat) (db : SegDB) : SegDB × List Tbl :=
  let r1 := bdel_segMask k db
  let r2 := bdel_segMaskInfo k r1.1
  let r3 := bdel_calcium k r2.1
  let r4 := bdel_maskClassification k r3.1
  let r5 := bdel_scanSet k r4.1
  ({ r5.1 with segmentation := rm r5.1.segmentation k },
    r1.2 ++ r2.2 ++ r3.2 ++ r4.2 ++ r5.2 ++ [Tbl.segmentation])

def bdel_nmf (k : Nat) (db : SegDB) : SegDB × List Tbl :=
  ({ db with nmfParameters := rm db.nmfParameters k,
             nmfBackground := rm db.nmfBackground k,
             nmfAR := rm db.nmfAR k,
             nmf := rm db.nmf k },
    [Tbl.nmfParameters, Tbl.nmfBackground, Tbl.nmfAR, Tbl.nmf])

def bdel_manualSegmentation (k : Nat) (db : SegDB) : SegDB × List Tbl :=
  ({ db with manualSegmentation := rm db.manualSegmentation k },
    [Tbl.manualSegmentation])

/-- `NMF.delete` (reso.py lines 914-919).  `self` is the NMF relation
restricted to the deleted key, so the guard `if Segmentation() & self:`
holds iff the key is in NMF (self nonempty) and a matching Segmentation
row exists; then that Segmentation row is cascade-deleted (reaching
Calcium, MaskClassification, ScanSet, Activity and the part tables).  The
guard `if self:` holds iff the key is in NMF, and `super().delete()` then
removes NMF's own rows and part rows. -/
def NMF_delete (k : Nat) (db : SegDB) : SegDB × List Tbl :=
  let s := if k ∈ db.nmf ∧ k ∈ db.segmentation then bdel_segmentation k db else (db, [])
  let n := if k ∈ s.1.nmf then bdel_nmf k s.1 else (s.1, [])
  (n.1, s.2 ++ n.2)

/-- `Segmentation.delete` (reso.py lines 1066-1073).  `self` is the
Segmentation relation restricted to the deleted key, so
`if ManualSegmentation() & self:` (resp. `if NMF() & self:`) holds iff a
matching ManualSegmentation (resp. NMF) row exists and the key is in
Segmentation itself; the matching rows are then deleted.  Finally
`if self: super().delete()` cascades from Segmentation through its
declared dependents before removing Segmentation's own rows. -/
def Segmentation_delete (k : Nat) (db : SegDB) : SegDB × List Tbl :=
  let m := if k ∈ db.manualSegmentation ∧ k ∈ db.segmentation
    then bdel_manualSegmentation k db else (db, [])
  let n := if k ∈ m.1.nmf ∧ k ∈ m.1.segmentation then bdel_nmf k m.1 else (m.1, [])
  let s := if k ∈ n.1.segmentation then bdel_segmentation k n.1 else (n.1, [])
  (s.1, m.2 ++ n.2 ++ s.2)

/-- The stages reachable downstream of Segmentation (declared foreign-key
dependents, transitively). -/
def downstreamSegmentation : List Tbl :=
  [Tbl.segMask, Tbl.segMaskInfo, Tbl.calcium, Tbl.calciumTrace,
   Tbl.maskClassification, Tbl.maskClassificationType, Tbl.scanSet,
   Tbl.scanSetUnit, Tbl.activity, Tbl.activityTrace]

/-- The stages downstream of NMF: its part tables plus Segmentation (whose
rows NMF._make_tuples creates, and which NMF.delete treats as its
dependent) and everything downstream of Segmentation. -/
def downstreamNMF : List Tbl :=
  [Tbl.nmfParameters, Tbl.nmfBackground, Tbl.nmfAR, Tbl.segmentation] ++
    downstreamSegmentation

/-- Referential integrity of the segmentation subgraph: every row's key is
present in each relation it references (the invariant the spec states
deletion must preserve). -/
def Integrity (db : SegDB) : Prop :=
  (∀ x ∈ db.segMask, x ∈ db.segmentation) ∧
  (∀ x ∈ db.segMaskInfo, x ∈ db.segmentation) ∧
  (∀ x ∈ db.calcium, x ∈ db.segmentation) ∧
  (∀ x ∈ db.calciumTrace, x ∈ db.calcium) ∧
  (∀ x ∈ db.maskClassification, x ∈ db.segmentation) ∧
  (∀ x ∈ db.maskClassificationType, x ∈ db.maskClassification) ∧
  (∀ x ∈ db.scanSet, x ∈ db.segmentation) ∧
  (∀ x ∈ db.scanSetUnit, x ∈ db.segMask) ∧
  (∀ x ∈ db.activity, x ∈ db.scanSet) ∧
  (∀ x ∈ db.activityTrace, x ∈ db.scanSetUnit) ∧
  (∀ x ∈ db.nmfParameters, x ∈ db.nmf) ∧
  (∀ x ∈ db.nmfBackground, x ∈ db.nmf) ∧
  (∀ x ∈ db.nmfAR, x ∈ db.nmf)

instance (db : SegDB) : Decidable (Integrity db) := by
  unfold Integrity
  infer_instance

/-- In a deletion trace, every deletion of a downstream table's rows
precedes every deletion of the ancestor table's own rows. -/
def ownAfterDownstream (tr : List Tbl) (own : Tbl) (down : List Tbl) : Prop :=
  ∀ i : Fin tr.length, ∀ j : Fin tr.length,
    tr.get i = own → tr.get j ∈ down → (j : Nat) < (i : Nat)

instance (tr : List Tbl) (own : Tbl) (down : List Tbl) :
    Decidable (ownAfterDownstream tr own down) := by
  unfold ownAfterDownstream
  infer_instance

/-- A fully populated, referentially intact database for concrete runs. -/
def segDBFull : SegDB :=
  ⟨[1, 2], [1, 2], [1, 2], [1, 2], [1, 2], [1, 2], [1, 2], [1, 2],
   [1, 2], [1, 2], [1, 2], [1, 2], [1, 2], [1, 2], [1, 2], [1, 2]⟩

/-- A tiny module environment for concrete runs: one module defining one
populatable relation class. -/
def envReso : String → Option (List String) :=
  fun p => if p = "pipeline.reso" then some ["ScanInfo", "RasterCorrection"] else none

/-- A resolvable stage identifier under `envReso`. -/
def relScanInfo : RelName := ⟨"pipeline.reso", "ScanInfo"⟩

/-- An unresolvable stage identifier under `envReso` (bad module path). -/
def relBadModule : RelName := ⟨"pipeline.typo", "ScanInfo"⟩

/-! ## Helper lemmas -/

lemma randint_bounds {tmin tmax : Int} (r : Nat) (h : tmin < tmax) :
    randint tmin tmax r = Except.ok (tmin + ((r % (tmax - tmin).toNat : Nat) : Int)) ∧
    tmin ≤ tmin + ((r % (tmax - tmin).toNat : Nat) : Int) ∧
    tmin + ((r % (tmax - tmin).toNat : Nat) : Int) ≤ tmax - 1 := by
  have hn : 0 < (tmax - tmin).toNat := by omega
  have hm : r % (tmax - tmin).toNat < (tmax - tmin).toNat := Nat.mod_lt _ hn
  refine ⟨by simp [randint, h], ?_, ?_⟩ <;> omega

lemma workerAux_sleep_bounds (daemon : Bool) {tmin tmax : Int} (rels : List String)
    (todo : Nat → String → Nat) (rand : Nat → Nat) (h : tmin < tmax) :
    ∀ fuel i rd, ∀ c ∈ (workerAux daemon tmin tmax rels todo rand fuel i rd).cycles,
      ∀ d, c.slept = some d → tmin ≤ d ∧ d ≤ tmax - 1 := by
  intro fuel
  induction fuel with
  | zero => intro i rd c hc; simp [workerAux] at hc
  | succ n ih =>
    intro i rd c hc d hd
    rw [workerAux] at hc
    split at hc
    · split at hc
      · split at hc
        next e heq =>
          simp only [WorkerTrace.mk.injEq, List.mem_singleton] at hc
          subst hc
          simp at hd
        next v heq =>
          simp only [List.mem_cons] at hc
          rcases hc with rfl | hc
          · simp only [Option.some.injEq] at hd
            subst hd
            obtain ⟨heq2, h1, h2⟩ := randint_bounds (rand i) h
            rw [heq2] at heq
            cases heq
            exact ⟨h1, h2⟩
          · exact ih (i + 1) daemon c hc d hd
      · simp only [List.mem_cons] at hc
        rcases hc with rfl | hc
        · simp at hd
        · exact ih (i + 1) daemon c hc d hd
    · simp [workerAux] at hc

lemma workerAux_exit_zero (daemon : Bool) (tmin tmax : Int) (rels : List String)
    (todo : Nat → String → Nat) (rand : Nat → Nat) :
    ∀ fuel i rd c, (workerAux daemon tmin tmax rels todo rand fuel i rd).outcome =
      some (Outcome.exited c) → c = 0 := by
  intro fuel
  induction fuel with
  | zero => intro i rd c hc; simp [workerAux] at hc
  | succ n ih =>
    intro i rd c hc
    rw [workerAux] at hc
    split at hc
    · split at hc
      · split at hc
        · simp at hc
        · exact ih (i + 1) daemon c hc
      · exact ih (i + 1) daemon c hc
    · simp only [Option.some.injEq, Outcome.exited.injEq] at hc
      omega

lemma resolveRels_eq_none {env : String → Option (List String)} :
    ∀ {relnames : List RelName}, (∃ r ∈ relnames, ¬ resolvable env r) →
      resolveRels env relnames = none := by
  intro relnames
  induction relnames with
  | nil => rintro ⟨r, hr, _⟩; simp at hr
  | cons a as ih =>
    rintro ⟨r, hr, hbad⟩
    rw [resolveRels]
    rcases List.mem_cons.mp hr with rfl | hr
    · cases henv : env r.modName with
      | none => rfl
      | some cs =>
        have : r.clsName ∉ cs := fun hmem => hbad ⟨cs, henv, hmem⟩
        simp [this]
    · cases henv : env a.modName with
      | none => rfl
      | some cs =>
        by_cases hcls : a.clsName ∈ cs
        · simp [hcls, ih ⟨r, hr, hbad⟩]
        · simp [hcls]

lemma resolveRels_isSome {env : String → Option (List String)} :
    ∀ {relnames : List RelName}, (∀ r ∈ relnames, resolvable env r) →
      ∃ rels, resolveRels env relnames = some rels := by
  intro relnames
  induction relnames with
  | nil => intro; exact ⟨[], rfl⟩
  | cons a as ih =>
    intro hall
    obtain ⟨cs, henv, hcls⟩ := hall a (List.mem_cons_self a as)
    obtain ⟨rels, hrels⟩ := ih (fun r hr => hall r (List.mem_cons_of_mem a hr))
    refine ⟨(a.modName ++ "." ++ a.clsName) :: rels, ?_⟩
    rw [resolveRels, henv]
    simp [hcls, hrels]

/-! ## Claim theorems -/

/-- C9: for every input, `TrackInfo._make_tuples` reads the local variable
`words` before any assignment to it (the assignment on aodtrk.py line 36 is
commented out), so it always fails with an unbound-local error before
reaching any insert and never commits a TrackInfo row — whatever the
unreachable remainder of the body would have done. -/
theorem trackinfo_unbound_local (hdf5_file : String)
    (rest : List String → List TrackRow × Except PyErr Unit) :
    trackInfo_make_tuples hdf5_file rest =
      ([], Except.error (PyErr.unboundLocal "words")) := rfl

/-- C7: for a compartment that is neither soma nor axon,
`estimate_num_components` constructs a PipelineException message but never
raises or returns it; control continues past the branch and the call ends
in an untyped unbound-local failure, never a PipelineException. -/
theorem estimate_unknown_compartment (um_height um_width : ℚ) (c : String)
    (h1 : c ≠ "soma") (h2 : c ≠ "axon") :
    (estimate_num_components um_height um_width c).1 =
      ["Compartment type " ++ c ++ " not recognized"] ∧
    (estimate_num_components um_height um_width c).2 =
      Except.error (PyErr.unboundLocal "num_components") ∧
    ∀ m, (estimate_num_components um_height um_width c).2 ≠
      Except.error (PyErr.pipelineException m) := by
  simp [estimate_num_components, h1, h2]

/-- Witness for C7 at a concrete dendritic compartment. -/
theorem estimate_unknown_compartment_witness :
    (estimate_num_components 100 100 "dendrite").1 =
      ["Compartment type " ++ "dendrite" ++ " not recognized"] ∧
    (estimate_num_components 100 100 "dendrite").2 =
      Except.error (PyErr.unboundLocal "num_components") ∧
    ∀ m, (estimate_num_components 100 100 "dendrite").2 ≠
      Except.error (PyErr.pipelineException m) :=
  estimate_unknown_compartment 100 100 "dendrite" (by decide) (by decide)

/-- C5 counterexample: with `t_min = t_max = 5`, daemon mode enabled and no
stage having work, `np.random.randint(5, 5)` raises ValueError, so the
worker crashes without sleeping rather than always sleeping exactly 5
seconds. -/
theorem daemon_sleep_equal_bounds_cex :
    mainRun envReso [relScanInfo] true 5 5 (fun _ _ => 0) (fun _ => 0) 3 =
      ⟨[⟨false, [], none⟩], some (Outcome.crashed (PyErr.valueError "low >= high"))⟩ := by
  rfl

/-- C5 (amended): the sleep duration is `randint(t_min, t_max)`, a uniform
integer draw from the half-open interval `[t_min, t_max)`: whenever
`t_min < t_max`, every sleep of the daemon loop lies in
`[t_min, t_max - 1]` (hence within `[t_min, t_max]`); with
`t_min = 5, t_max = 6` every draw is exactly 5; with `t_min = t_max = 5`
the draw raises ValueError instead of sleeping. -/
theorem daemon_sleep_bounds (daemon : Bool) (tmin tmax : Int) (rels : List String)
    (todo : Nat → String → Nat) (rand : Nat → Nat) (fuel i : Nat) (rd : Bool)
    (h : tmin < tmax) :
    (∀ c ∈ (workerAux daemon tmin tmax rels todo rand fuel i rd).cycles,
      ∀ d, c.slept = some d → tmin ≤ d ∧ d ≤ tmax - 1) ∧
    (∀ s, randint 5 6 s = Except.ok 5) ∧
    (∀ s, randint 5 5 s = Except.error (PyErr.valueError "low >= high")) := by
  refine ⟨workerAux_sleep_bounds daemon rels todo rand h fuel i rd, ?_, ?_⟩
  · intro s
    simp [randint, Nat.mod_one]
  · intro s
    simp [randint]

/-- Witness for C5 at a concrete daemon run with bounds 5 and 7. -/
theorem daemon_sleep_bounds_witness :
    (∀ c ∈ (workerAux true 5 7 ["pipeline.reso.ScanInfo"] (fun _ _ => 0)
        (fun _ => 1) 2 0 true).cycles,
      ∀ d, c.slept = some d → 5 ≤ d ∧ d ≤ 7 - 1) ∧
    (∀ s, randint 5 6 s = Except.ok 5) ∧
    (∀ s, randint 5 5 s = Except.error (PyErr.valueError "low >= high")) :=
  daemon_sleep_bounds true 5 7 ["pipeline.reso.ScanInfo"] (fun _ _ => 0)
    (fun _ => 1) 2 0 true (by decide)

/-- C6 counterexample: with daemon mode disabled, one resolvable stage and
no pending work, the single cycle still sleeps (for 5 seconds here),
because the sleep guard reads `run_daemon`, which is still True during the
first iteration regardless of `args.daemon`. -/
theorem single_pass_sleeps_cex :
    mainRun envReso [relScanInfo] false 5 6 (fun _ _ => 0) (fun _ => 0) 2 =
      ⟨[⟨false, [], some 5⟩], some (Outcome.exited 0)⟩ := by
  rfl

/-- C6 (amended): with daemon mode disabled the worker stops after exactly
one poll-and-populate cycle; in that cycle it does not sleep when some
stage had work, but when no stage had work it still attempts the
randomized sleep (sleeping or crashing on a ValueError), since the sleep
guard is not restricted to daemon mode. -/
theorem single_pass_one_cycle (env : String → Option (List String))
    (relnames : List RelName) (tmin tmax : Int) (todo : Nat → String → Nat)
    (rand : Nat → Nat) (fuel : Nat) (rels : List String)
    (hres : resolveRels env relnames = some rels) (hfuel : 2 ≤ fuel) :
    (mainRun env relnames false tmin tmax todo rand fuel).cycles.length = 1 ∧
    ∀ c ∈ (mainRun env relnames false tmin tmax todo rand fuel).cycles,
      (c.populated = true → c.slept = none) ∧
      (c.populated = false → (∃ d, c.slept = some d) ∨
        ∃ e, (mainRun env relnames false tmin tmax todo rand fuel).outcome =
          some (Outcome.crashed e)) := by
  obtain ⟨m, rfl⟩ : ∃ m, fuel = m + 2 := ⟨fuel - 2, by omega⟩
  simp only [mainRun, hres]
  rw [workerAux]
  by_cases hp : (runStages rels (todo 0)).1
  · rw [workerAux]
    simp [hp]
  · cases hrand : randint tmin tmax (rand 0) with
    | error e => simp [hp, hrand]
    | ok d =>
      rw [workerAux]
      simp [hp, hrand]

/-- Witness for C6 at a concrete single-pass run with pending work. -/
theorem single_pass_one_cycle_witness :
    (mainRun envReso [relScanInfo] false 5 6 (fun _ _ => 1) (fun _ => 0) 2).cycles.length = 1 ∧
    ∀ c ∈ (mainRun envReso [relScanInfo] false 5 6 (fun _ _ => 1) (fun _ => 0) 2).cycles,
      (c.populated = true → c.slept = none) ∧
      (c.populated = false → (∃ d, c.slept = some d) ∨
        ∃ e, (mainRun envReso [relScanInfo] false 5 6 (fun _ _ => 1) (fun _ => 0) 2).outcome =
          some (Outcome.crashed e)) :=
  single_pass_one_cycle envReso [relScanInfo] 5 6 (fun _ _ => 1) (fun _ => 0) 2
    ["pipeline.reso.ScanInfo"] rfl (by omega)

/-- C8: the worker exits with code 1 when any named stage identifier cannot
be resolved, before any cycle (hence any populate) runs, and any normal
termination of the single-pass loop carries exit code 0. -/
theorem worker_exit_codes (env : String → Option (List String))
    (relnames : List RelName) (daemon : Bool) (tmin tmax : Int)
    (todo : Nat → String → Nat) (rand : Nat → Nat) (fuel : Nat) :
    ((∃ r ∈ relnames, ¬ resolvable env r) →
      mainRun env relnames daemon tmin tmax todo rand fuel =
        ⟨[], some (Outcome.exited 1)⟩) ∧
    ((∀ r ∈ relnames, resolvable env r) → daemon = false →
      ∀ c, (mainRun env relnames daemon tmin tmax todo rand fuel).outcome =
        some (Outcome.exited c) → c = 0) := by
  constructor
  · intro hbad
    simp [mainRun, resolveRels_eq_none hbad]
  · intro hall _ c hc
    obtain ⟨rels, hrels⟩ := resolveRels_isSome hall
    rw [mainRun, hrels] at hc
    exact workerAux_exit_zero daemon tmin tmax rels todo rand fuel 0 true c hc

/-- Witness for C8: a bad module path exits 1 with no cycles; a resolvable
single-pass run only ever exits 0. -/
theorem worker_exit_codes_witness :
    mainRun envReso [relBadModule] false 5 6 (fun _ _ => 0) (fun _ => 0) 2 =
      ⟨[], some (Outcome.exited 1)⟩ ∧
    ∀ c, (mainRun envReso [relScanInfo] false 5 6 (fun _ _ => 1) (fun _ => 0) 2).outcome =
      some (Outcome.exited c) → c = 0 := by
  constructor
  · exact (worker_exit_codes envReso [relBadModule] false 5 6 (fun _ _ => 0)
      (fun _ => 0) 2).1 ⟨relBadModule, by simp, by decide⟩
  · exact (worker_exit_codes envReso [relScanInfo] false 5 6 (fun _ _ => 1)
      (fun _ => 0) 2).2 (by intro r hr; simp at hr; subst hr; decide) rfl

/-- C4 counterexample: a scan whose ScanInfo row exists with no slice rows
and no correction-channel rows satisfies the claim's pending condition
(vacuously, every slice has a choice) yet the key source excludes it,
because `ScanInfo() & CorrectionChannel()` requires at least one matching
correction-channel row. -/
theorem raster_pending_cex :
    rasterPendingClaim scanDBNoSlices 1 ∧ 1 ∉ rasterPending scanDBNoSlices := by
  decide

/-- C4 (amended): a scan key is pending for RasterCorrection iff its
ScanInfo row exists, at least one correction-channel row matches the scan,
every slice of the scan has a correction-channel row, and the key is not
already done for the stage. -/
theorem raster_pending_iff (db : ScanDB) (s : Nat) :
    s ∈ rasterPending db ↔
      s ∈ db.scanInfo ∧ (∃ c ∈ db.correctionChannel, c.1 = s) ∧
      (∀ sl ∈ db.scanInfoSlice, sl.1 = s → sl ∈ db.correctionChannel) ∧
      s ∉ db.rasterDone := by
  simp only [rasterPending, rasterKeySource, List.mem_filter, List.any_eq_true,
    List.all_eq_true, Bool.not_eq_true', List.any_eq_false, beq_iff_eq,
    Bool.and_eq_true, decide_eq_true_eq]
  constructor
  · rintro ⟨⟨⟨hs, hcc⟩, hq⟩, hd⟩
    refine ⟨hs, hcc, ?_, ?_⟩
    · intro sl hsl h1
      by_contra hn
      exact hq sl ⟨hsl, fun y hy hEq => hn (hEq ▸ hy)⟩ h1
    · intro hds
      exact hd s hds rfl
  · rintro ⟨hs, hcc, hq, hd⟩
    refine ⟨⟨⟨hs, hcc⟩, ?_⟩, ?_⟩
    · rintro x ⟨hx, hmiss⟩ h1
      exact hmiss x (hq x hx h1) rfl
    · intro x hx hEq
      exact hd (hEq ▸ hx)

/-- C1 helper: the success count of a log grows by one entry at a time. -/
lemma successCount_cons (j a : JobKey) (s : Bool) (log : List (JobKey × Bool)) :
    successCount j ((a, s) :: log) =
      (if a = j ∧ s = true then 1 else 0) + successCount j log := by
  simp only [successCount, List.filter_cons]
  split
  · next hcond =>
    simp only [Bool.and_eq_true, beq_iff_eq] at hcond
    rw [if_pos hcond, List.length_cons, Nat.add_comm]
  · next hcond =>
    simp only [Bool.and_eq_true, beq_iff_eq] at hcond
    rw [if_neg hcond, Nat.zero_add]

/-- C1 helper: once a job is reserved, later attempts on it never succeed. -/
lemma runReservations_zero (j : JobKey) :
    ∀ (attempts init : List JobKey), j ∈ init →
      successCount j (runReservations init attempts).1 = 0 := by
  intro attempts
  induction attempts with
  | nil => intro init _; simp [runReservations, successCount]
  | cons a as ih =>
    intro init hj
    rw [runReservations]
    by_cases ha : a ∈ init
    · rw [show tryReserve init a = (false, init) from by simp [tryReserve, ha]]
      rw [successCount_cons]
      simp [ih init hj]
    · rw [show tryReserve init a = (true, a :: init) from by simp [tryReserve, ha]]
      rw [successCount_cons]
      have hane : ¬ a = j := fun h => ha (h ▸ hj)
      simp [hane, ih (a :: init) (List.mem_cons_of_mem a hj)]

/-- C1 helper: starting unreserved, the success count over any attempt
sequence is 1 if the job is attempted at all, else 0. -/
lemma runReservations_once (j : JobKey) :
    ∀ (attempts init : List JobKey), j ∉ init →
      successCount j (runReservations init attempts).1 = min (attempts.count j) 1 := by
  intro attempts
  induction attempts with
  | nil => intro init _; simp [runReservations, successCount]
  | cons a as ih =>
    intro init hj
    rw [runReservations]
    by_cases haj : a = j
    · subst haj
      rw [show tryReserve init a = (true, a :: init) from by simp [tryReserve, hj]]
      rw [successCount_cons]
      rw [runReservations_zero a as (a :: init) (List.mem_cons_self a init)]
      simp [List.count_cons]
    · by_cases ha : a ∈ init
      · rw [show tryReserve init a = (false, init) from by simp [tryReserve, ha]]
        rw [successCount_cons]
        have hne : ¬ (a = j ∧ false = true) := by rintro ⟨_, h⟩; exact Bool.false_ne_true h
        rw [if_neg hne, Nat.zero_add, ih init hj]
        simp [List.count_cons, haj]
      · rw [show tryReserve init a = (true, a :: init) from by simp [tryReserve, ha]]
        rw [successCount_cons]
        have hne : ¬ (a = j ∧ true = true) := by rintro ⟨rfl, _⟩; exact haj rfl
        have hj2 : j ∉ a :: init := by
          simp only [List.mem_cons]
          rintro (rfl | h)
          · exact haj rfl
          · exact hj h
        rw [if_neg hne, Nat.zero_add, ih (a :: init) hj2]
        simp [List.count_cons, haj]

/-- Witness for C4 at a concrete pending scan. -/
theorem raster_pending_iff_witness :
    3 ∈ rasterPending (⟨[3], [(3, 1)], [(3, 1)], []⟩ : ScanDB) ↔
      3 ∈ (⟨[3], [(3, 1)], [(3, 1)], []⟩ : ScanDB).scanInfo ∧
      (∃ c ∈ (⟨[3], [(3, 1)], [(3, 1)], []⟩ : ScanDB).correctionChannel, c.1 = 3) ∧
      (∀ sl ∈ (⟨[3], [(3, 1)], [(3, 1)], []⟩ : ScanDB).scanInfoSlice,
        sl.1 = 3 → sl ∈ (⟨[3], [(3, 1)], [(3, 1)], []⟩ : ScanDB).correctionChannel) ∧
      3 ∉ (⟨[3], [(3, 1)], [(3, 1)], []⟩ : ScanDB).rasterDone :=
  raster_pending_iff ⟨[3], [(3, 1)], [(3, 1)], []⟩ 3

/-- C10 helper: the head of a list, when it exists, is a member. -/
lemma head?_mem {α : Type} {l : List α} {a : α} (h : l.head? = some a) : a ∈ l := by
  cases l with
  | nil => simp at h
  | cons x xs =>
    simp only [List.head?_cons, Option.some.injEq] at h
    subst h
    exact List.mem_cons_self x xs

/-- C1: for every stage and key, starting from a table in which the job is
unreserved, any sequence of reservation attempts (any interleaving of the
atomic `try_reserve` operations of N workers) yields exactly
`min(count, 1)` successes — 0 when nobody attempts the job and exactly 1
otherwise — and a losing attempt leaves the reservation table unchanged
(no side effects). -/
theorem at_most_one_commit (init attempts : List JobKey) (j : JobKey) (h : j ∉ init) :
    successCount j (runReservations init attempts).1 = min (attempts.count j) 1 ∧
    ∀ jobs, j ∈ jobs → tryReserve jobs j = (false, jobs) :=
  ⟨runReservations_once j attempts init h, fun jobs hj => by simp [tryReserve, hj]⟩

/-- Witness for C1: two workers attempt the same job simultaneously;
exactly one succeeds. -/
theorem at_most_one_commit_witness :
    successCount ⟨"reso.RasterCorrection", 1⟩
        (runReservations []
          [⟨"reso.RasterCorrection", 1⟩, ⟨"reso.RasterCorrection", 1⟩]).1 =
      min (List.count (⟨"reso.RasterCorrection", 1⟩ : JobKey)
        [⟨"reso.RasterCorrection", 1⟩, ⟨"reso.RasterCorrection", 1⟩]) 1 ∧
    ∀ jobs, (⟨"reso.RasterCorrection", 1⟩ : JobKey) ∈ jobs →
      tryReserve jobs ⟨"reso.RasterCorrection", 1⟩ = (false, jobs) :=
  at_most_one_commit [] [⟨"reso.RasterCorrection", 1⟩, ⟨"reso.RasterCorrection", 1⟩]
    ⟨"reso.RasterCorrection", 1⟩ (by simp)

/-- C2: if the compute function fails for key `bad` in a batch of pending
keys while every other key computes successfully, `populate` still attempts
every key, commits exactly the other keys, and records the error for `bad`;
the failure never aborts the batch. -/
theorem error_isolation {K R E : Type} [DecidableEq K] (compute : K → Except E R)
    (keys : List K) (bad : K) (e : E)
    (hbad : compute bad = Except.error e)
    (hok : ∀ k ∈ keys, k ≠ bad → ∃ r, compute k = Except.ok r) :
    (populate compute keys).attempted = keys ∧
    (populate compute keys).committed.map Prod.fst = keys.filter (fun k => k != bad) ∧
    (populate compute keys).errored.map Prod.fst = keys.filter (fun k => k == bad) ∧
    (bad ∈ keys → (bad, e) ∈ (populate compute keys).errored) := by
  induction keys with
  | nil => simp [populate]
  | cons k ks ih =>
    obtain ⟨h1, h2, h3, h4⟩ := ih (fun x hx hne => hok x (List.mem_cons_of_mem k hx) hne)
    by_cases hk : k = bad
    · subst hk
      rw [populate, hbad]
      refine ⟨by simp [h1], ?_, ?_, ?_⟩
      · simpa [List.filter_cons] using h2
      · simpa [List.filter_cons] using h3
      · intro _
        exact List.mem_cons_self _ _
    · obtain ⟨r, hr⟩ := hok k (List.mem_cons_self k ks) hk
      rw [populate, hr]
      refine ⟨by simp [h1], ?_, ?_, ?_⟩
      · simpa [List.filter_cons, hk] using h2
      · simpa [List.filter_cons, hk] using h3
      · intro hmem
        rcases List.mem_cons.mp hmem with rfl | hmem
        · exact absurd rfl hk
        · simpa using h4 hmem

/-- Witness for C2 with the Activity compute function: the nmf spike method
raises NotImplementedError while oopsi and stm succeed; the two good keys
are still attempted and committed and the error is recorded. -/
theorem error_isolation_witness :
    (populate (fun k => activityCompute k [1, 2] (fun _ => [0]))
        ["oopsi", "nmf", "stm"]).attempted = ["oopsi", "nmf", "stm"] ∧
    (populate (fun k => activityCompute k [1, 2] (fun _ => [0]))
        ["oopsi", "nmf", "stm"]).committed.map Prod.fst =
      List.filter (fun k => k != "nmf") ["oopsi", "nmf", "stm"] ∧
    (populate (fun k => activityCompute k [1, 2] (fun _ => [0]))
        ["oopsi", "nmf", "stm"]).errored.map Prod.fst =
      List.filter (fun k => k == "nmf") ["oopsi", "nmf", "stm"] ∧
    ("nmf" ∈ ["oopsi", "nmf", "stm"] →
      ("nmf", PyErr.notImplementedError "NMF not yet implemented") ∈
        (populate (fun k => activityCompute k [1, 2] (fun _ => [0]))
          ["oopsi", "nmf", "stm"]).errored) :=
  error_isolation (fun k => activityCompute k [1, 2] (fun _ => [0]))
    ["oopsi", "nmf", "stm"] "nmf" (PyErr.notImplementedError "NMF not yet implemented")
    rfl
    (by
      intro k hk hne
      simp only [List.mem_cons, List.not_mem_nil, or_false] at hk
      rcases hk with rfl | rfl | rfl
      · exact ⟨_, rfl⟩
      · exact absurd rfl hne
      · exact ⟨_, rfl⟩)

/-- C10: whenever `EyeFrame._make_tuples` commits, every EyeFrame row and
every Detection row carries `pupil_tracker_param_id = 0`; the parameter
record handed to the tracker is the stored id-0 row with
`centre_dislocation_penalty` overridden to 0.001 and `distance_sq_pow`
overridden to 1; and the computation is unchanged if every stored parameter
row other than id 0 is removed (those rows are never used). -/
theorem eyeframe_param_zero (contents : List EyeParam) (roiKey : Nat)
    (track : EyeParam → List (Nat × Bool)) (param : EyeParam)
    (eyeRows detRows : List EyeFrameRow)
    (h : eyeFrame_make_tuples contents roiKey track = some (param, eyeRows, detRows)) :
    (∀ r ∈ eyeRows, r.pupil_tracker_param_id = 0) ∧
    (∀ r ∈ detRows, r.pupil_tracker_param_id = 0) ∧
    param.centre_dislocation_penalty = 1/1000 ∧ param.distance_sq_pow = 1 ∧
    (∃ p0 ∈ contents, p0.pupil_tracker_param_id = 0 ∧
      param = { p0 with centre_dislocation_penalty := 1/1000, distance_sq_pow := 1 }) ∧
    eyeFrame_make_tuples contents roiKey track =
      eyeFrame_make_tuples (contents.filter (fun p => p.pupil_tracker_param_id == 0))
        roiKey track := by
  have hfilter : (contents.filter (fun p => p.pupil_tracker_param_id == 0)).filter
      (fun p => p.pupil_tracker_param_id == 0) =
      contents.filter (fun p => p.pupil_tracker_param_id == 0) :=
    List.filter_eq_self.mpr (fun a ha => (List.mem_filter.mp ha).2)
  cases hh : (contents.filter (fun p => p.pupil_tracker_param_id == 0)).head? with
  | none =>
    rw [eyeFrame_make_tuples, hh] at h
    exact absurd h (by simp)
  | some p0 =>
    have hp0f := head?_mem hh
    have hp0c : p0 ∈ contents := (List.mem_filter.mp hp0f).1
    have hp0id : p0.pupil_tracker_param_id = 0 := by
      have := (List.mem_filter.mp hp0f).2
      simpa using this
    rw [eyeFrame_make_tuples, hh] at h
    simp only [Option.some.injEq, Prod.mk.injEq] at h
    obtain ⟨hparam, hrows, hdet⟩ := h
    refine ⟨?_, ?_, ?_, ?_, ⟨p0, hp0c, hp0id, hparam.symm⟩, ?_⟩
    · intro r hr
      rw [← hrows] at hr
      simp only [List.mem_map] at hr
      obtain ⟨t, _, rfl⟩ := hr
      exact hp0id
    · intro r hr
      rw [← hdet] at hr
      simp only [List.mem_map] at hr
      obtain ⟨t, _, rfl⟩ := hr
      exact hp0id
    · rw [← hparam]
    · rw [← hparam]
    · rw [eyeFrame_make_tuples, hh, eyeFrame_make_tuples, hfilter, hh]

/-- Witness for C10: the concrete ParamEyeFrame contents and a two-frame
trace (one detection); both rows carry parameter id 0 and the tracker
parameter is the id-0 row (whose stored penalty and power already equal the
overrides). -/
theorem eyeframe_param_zero_witness :
    (∀ r ∈ ([⟨7, 0, 0⟩, ⟨7, 0, 1⟩] : List EyeFrameRow), r.pupil_tracker_param_id = 0) ∧
    (∀ r ∈ ([⟨7, 0, 0⟩] : List EyeFrameRow), r.pupil_tracker_param_id = 0) ∧
    (⟨0, 1/2, 1/2, 99, 1, 1/5, 4/5, 5, 180, 1/1000, 1⟩ :
      EyeParam).centre_dislocation_penalty = 1/1000 ∧
    (⟨0, 1/2, 1/2, 99, 1, 1/5, 4/5, 5, 180, 1/1000, 1⟩ : EyeParam).distance_sq_pow = 1 ∧
    (∃ p0 ∈ paramEyeFrameContents, p0.pupil_tracker_param_id = 0 ∧
      (⟨0, 1/2, 1/2, 99, 1, 1/5, 4/5, 5, 180, 1/1000, 1⟩ : EyeParam) =
        { p0 with centre_dislocation_penalty := 1/1000, distance_sq_pow := 1 }) ∧
    eyeFrame_make_tuples paramEyeFrameContents 7 (fun _ => [(0, true), (1, false)]) =
      eyeFrame_make_tuples
        (paramEyeFrameContents.filter (fun p => p.pupil_tracker_param_id == 0)) 7
        (fun _ => [(0, true), (1, false)]) :=
  eyeframe_param_zero paramEyeFrameContents 7 (fun _ => [(0, true), (1, false)])
    ⟨0, 1/2, 1/2, 99, 1, 1/5, 4/5, 5, 180, 1/1000, 1⟩
    [⟨7, 0, 0⟩, ⟨7, 0, 1⟩] [⟨7, 0, 0⟩] (by rfl)

/-- C3 helper: the deleted key is gone from a deleted relation. -/
lemma not_mem_rm (l : List Nat) (k : Nat) : k ∉ rm l k := by
  simp [rm]

/-- C3 helper: deletion removes rows but never adds any. -/
lemma not_mem_rm_of_not_mem {l : List Nat} {k : Nat} (k2 : Nat) (h : k ∉ l) :
    k ∉ rm l k2 := fun hm => h (List.mem_of_mem_filter hm)

/-- C3 helper: after `Segmentation.delete`, the deleted key is absent from
Segmentation and from every stage downstream of it. -/
lemma Segmentation_delete_clears (db : SegDB) (k : Nat) (hint : Integrity db) :
    (∀ t ∈ downstreamSegmentation, k ∉ (Segmentation_delete k db).1.get t) ∧
    k ∉ (Segmentation_delete k db).1.segmentation := by
  obtain ⟨i1, i2, i3, i4, i5, i6, i7, i8, i9, i10, i11, i12, i13⟩ := hint
  by_cases hs : k ∈ db.segmentation
  · constructor
    · intro t ht
      fin_cases ht <;>
        (by_cases hm : k ∈ db.manualSegmentation <;>
          by_cases hn : k ∈ db.nmf <;>
          simp [Segmentation_delete, bdel_manualSegmentation, bdel_nmf, bdel_segmentation,
            bdel_segMask, bdel_segMaskInfo, bdel_calciumTrace, bdel_maskClassificationType,
            bdel_scanSetUnit, bdel_activityTrace, bdel_calcium, bdel_maskClassification,
            bdel_scanSet, bdel_activity, SegDB.get, downstreamSegmentation,
            hm, hn, hs, rm])
    · by_cases hm : k ∈ db.manualSegmentation <;>
        by_cases hn : k ∈ db.nmf <;>
        simp [Segmentation_delete, bdel_manualSegmentation, bdel_nmf, bdel_segmentation,
          bdel_segMask, bdel_segMaskInfo, bdel_calciumTrace, bdel_maskClassificationType,
          bdel_scanSetUnit, bdel_activityTrace, bdel_calcium, bdel_maskClassification,
          bdel_scanSet, bdel_activity, hm, hn, hs, rm]
  · have c1 : k ∉ db.segMask := fun h => hs (i1 k h)
    have c2 : k ∉ db.segMaskInfo := fun h => hs (i2 k h)
    have c3 : k ∉ db.calcium := fun h => hs (i3 k h)
    have c4 : k ∉ db.calciumTrace := fun h => c3 (i4 k h)
    have c5 : k ∉ db.maskClassification := fun h => hs (i5 k h)
    have c6 : k ∉ db.maskClassificationType := fun h => c5 (i6 k h)
    have c7 : k ∉ db.scanSet := fun h => hs (i7 k h)
    have c8 : k ∉ db.scanSetUnit := fun h => c1 (i8 k h)
    have c9 : k ∉ db.activity := fun h => c7 (i9 k h)
    have c10 : k ∉ db.activityTrace := fun h => c8 (i10 k h)
    constructor
    · intro t ht
      fin_cases ht <;>
        (by_cases hm : k ∈ db.manualSegmentation <;>
          by_cases hn : k ∈ db.nmf <;>
          simp [Segmentation_delete, bdel_manualSegmentation, bdel_nmf, SegDB.get,
            hm, hn, hs] <;>
          first
            | exact c1 | exact c2 | exact c3 | exact c4 | exact c5
            | exact c6 | exact c7 | exact c8 | exact c9 | exact c10)
    · by_cases hm : k ∈ db.manualSegmentation <;>
        by_cases hn : k ∈ db.nmf <;>
        simp [Segmentation_delete, bdel_manualSegmentation, bdel_nmf, hm, hn, hs]

/-- C3 helper: after `NMF.delete` of a key present in NMF, the key is
absent from every stage downstream of NMF; NMF's own rows never retain the
key (deleting an absent key is a no-op by the source's emptiness guards). -/
lemma NMF_delete_clears (db : SegDB) (k : Nat) (hint : Integrity db) :
    (k ∈ db.nmf → ∀ t ∈ downstreamNMF, k ∉ (NMF_delete k db).1.get t) ∧
    k ∉ (NMF_delete k db).1.nmf := by
  obtain ⟨i1, i2, i3, i4, i5, i6, i7, i8, i9, i10, i11, i12, i13⟩ := hint
  constructor
  · intro hkn t ht
    by_cases hs : k ∈ db.segmentation
    · fin_cases ht <;>
        simp [NMF_delete, bdel_nmf, bdel_segmentation, bdel_segMask, bdel_segMaskInfo,
          bdel_calciumTrace, bdel_maskClassificationType, bdel_scanSetUnit,
          bdel_activityTrace, bdel_calcium, bdel_maskClassification, bdel_scanSet,
          bdel_activity, SegDB.get, hkn, hs, rm]
    · have c1 : k ∉ db.segMask := fun h => hs (i1 k h)
      have c2 : k ∉ db.segMaskInfo := fun h => hs (i2 k h)
      have c3 : k ∉ db.calcium := fun h => hs (i3 k h)
      have c4 : k ∉ db.calciumTrace := fun h => c3 (i4 k h)
      have c5 : k ∉ db.maskClassification := fun h => hs (i5 k h)
      have c6 : k ∉ db.maskClassificationType := fun h => c5 (i6 k h)
      have c7 : k ∉ db.scanSet := fun h => hs (i7 k h)
      have c8 : k ∉ db.scanSetUnit := fun h => c1 (i8 k h)
      have c9 : k ∉ db.activity := fun h => c7 (i9 k h)
      have c10 : k ∉ db.activityTrace := fun h => c8 (i10 k h)
      fin_cases ht <;>
        simp [NMF_delete, bdel_nmf, SegDB.get, hkn, hs, rm] <;>
        first
          | exact hs
          | exact c1 | exact c2 | exact c3 | exact c4 | exact c5
          | exact c6 | exact c7 | exact c8 | exact c9 | exact c10
  · by_cases hn : k ∈ db.nmf <;>
      by_cases hs : k ∈ db.segmentation <;>
      simp [NMF_delete, bdel_nmf, bdel_segmentation, bdel_segMask, bdel_segMaskInfo,
        bdel_calciumTrace, bdel_maskClassificationType, bdel_scanSetUnit,
        bdel_activityTrace, bdel_calcium, bdel_maskClassification, bdel_scanSet,
        bdel_activity, hn, hs, rm]

/-- C3 helper: `ManualSegmentation` deletion leaves NMF untouched. -/
lemma bdel_manualSegmentation_nmf (k : Nat) (db : SegDB) :
    (bdel_manualSegmentation k db).1.nmf = db.nmf := rfl

/-- C3 helper: `ManualSegmentation` deletion leaves Segmentation untouched. -/
lemma bdel_manualSegmentation_segmentation (k : Nat) (db : SegDB) :
    (bdel_manualSegmentation k db).1.segmentation = db.segmentation := rfl

/-- C3 helper: NMF deletion leaves Segmentation untouched. -/
lemma bdel_nmf_segmentation (k : Nat) (db : SegDB) :
    (bdel_nmf k db).1.segmentation = db.segmentation := rfl

/-- C3 helper: Segmentation cascade deletion leaves NMF untouched. -/
lemma bdel_segmentation_nmf (k : Nat) (db : SegDB) :
    (bdel_segmentation k db).1.nmf = db.nmf := by
  simp [bdel_segmentation, bdel_segMask, bdel_segMaskInfo, bdel_calciumTrace,
    bdel_maskClassificationType, bdel_scanSetUnit, bdel_activityTrace, bdel_calcium,
    bdel_maskClassification, bdel_scanSet, bdel_activity]

/-- C3 helper: deletion trace of the ManualSegmentation base delete. -/
lemma bdel_manualSegmentation_trace (k : Nat) (db : SegDB) :
    (bdel_manualSegmentation k db).2 = [Tbl.manualSegmentation] := rfl

/-- C3 helper: deletion trace of the NMF base delete. -/
lemma bdel_nmf_trace (k : Nat) (db : SegDB) :
    (bdel_nmf k db).2 =
      [Tbl.nmfParameters, Tbl.nmfBackground, Tbl.nmfAR, Tbl.nmf] := rfl

/-- C3 helper: deletion trace of the Segmentation cascade delete —
dependent tables first, Segmentation's own rows last. -/
lemma bdel_segmentation_trace (k : Nat) (db : SegDB) :
    (bdel_segmentation k db).2 =
      [Tbl.segMaskInfo, Tbl.calciumTrace, Tbl.maskClassificationType,
       Tbl.activityTrace, Tbl.scanSetUnit, Tbl.segMask, Tbl.segMaskInfo,
       Tbl.calciumTrace, Tbl.calcium, Tbl.maskClassificationType,
       Tbl.maskClassification, Tbl.activityTrace, Tbl.activity, Tbl.scanSet,
       Tbl.segmentation] := rfl

/-- C3 helper: in the `Segmentation.delete` trace, every downstream
deletion precedes the deletion of Segmentation's own rows. -/
lemma Segmentation_delete_order (db : SegDB) (k : Nat) :
    ownAfterDownstream (Segmentation_delete k db).2 Tbl.segmentation
      downstreamSegmentation := by
  by_cases hm : k ∈ db.manualSegmentation <;>
    by_cases hn : k ∈ db.nmf <;>
    by_cases hs : k ∈ db.segmentation <;>
    · simp [Segmentation_delete, bdel_manualSegmentation_nmf,
        bdel_manualSegmentation_segmentation, bdel_nmf_segmentation,
        bdel_manualSegmentation_trace, bdel_nmf_trace, bdel_segmentation_trace,
        hm, hn, hs]
      decide

/-- C3 helper: in the `NMF.delete` trace, every downstream deletion
precedes the deletion of NMF's own rows. -/
lemma NMF_delete_order (db : SegDB) (k : Nat) :
    ownAfterDownstream (NMF_delete k db).2 Tbl.nmf downstreamNMF := by
  by_cases hn : k ∈ db.nmf <;>
    by_cases hs : k ∈ db.segmentation <;>
    · simp [NMF_delete, bdel_segmentation_nmf, bdel_nmf_trace,
        bdel_segmentation_trace, hn, hs]
      decide

/-- C3: on a referentially intact database, cascade deletion of a key from
Segmentation (reso.py 1066-1073) and from NMF (reso.py 914-919) deletes
downstream dependents' rows strictly before the stage's own rows, and
afterwards no stage reachable downstream of the deleted stage holds any row
whose key restricts to the deleted key.  For NMF the clearance holds for
keys the stage actually holds: the source's `if Segmentation() & self:`
guard makes deletion of a key absent from NMF a no-op, so a Segmentation
row of another extraction method is (correctly) left alone. -/
theorem cascade_delete_complete (db : SegDB) (k : Nat) (hint : Integrity db) :
    (∀ t ∈ downstreamSegmentation, k ∉ (Segmentation_delete k db).1.get t) ∧
    k ∉ (Segmentation_delete k db).1.segmentation ∧
    ownAfterDownstream (Segmentation_delete k db).2 Tbl.segmentation
      downstreamSegmentation ∧
    (k ∈ db.nmf → ∀ t ∈ downstreamNMF, k ∉ (NMF_delete k db).1.get t) ∧
    k ∉ (NMF_delete k db).1.nmf ∧
    ownAfterDownstream (NMF_delete k db).2 Tbl.nmf downstreamNMF :=
  ⟨(Segmentation_delete_clears db k hint).1, (Segmentation_delete_clears db k hint).2,
    Segmentation_delete_order db k,
    (NMF_delete_clears db k hint).1, (NMF_delete_clears db k hint).2,
    NMF_delete_order db k⟩

/-- Witness for C3 on a fully populated, referentially intact database,
holding the deleted key in every table including NMF. -/
theorem cascade_delete_complete_witness :
    (∀ t ∈ downstreamSegmentation, 1 ∉ (Segmentation_delete 1 segDBFull).1.get t) ∧
    1 ∉ (Segmentation_delete 1 segDBFull).1.segmentation ∧
    ownAfterDownstream (Segmentation_delete 1 segDBFull).2 Tbl.segmentation
      downstreamSegmentation ∧
    (1 ∈ segDBFull.nmf → ∀ t ∈ downstreamNMF, 1 ∉ (NMF_delete 1 segDBFull).1.get t) ∧
    1 ∉ (NMF_delete 1 segDBFull).1.nmf ∧
    ownAfterDownstream (NMF_delete 1 segDBFull).2 Tbl.nmf downstreamNMF :=
  cascade_delete_complete segDBFull 1 (by decide)

end MousePipeline
